import Mathlib

/-!
Verification of the sbis document-submission pipeline (`src/uiServer.ts`,
`SabyClient`).  JavaScript strings are modelled as lists of Unicode code
points (`JsStr`); machine behaviour (truthiness, trimming, regex scans,
`Date.UTC` day arithmetic, base64, the latin1→utf8 filename repair) is
embedded as executable Lean functions mirroring the source.
-/

/-- A JavaScript string, as its sequence of Unicode code points. -/
abbrev JsStr := List Nat

/-- Embed a Lean string literal as a `JsStr`. -/
def str (s : String) : JsStr := s.data.map Char.toNat

/-- The JavaScript `\s` / trim whitespace class (WhiteSpace ∪ LineTerminator). -/
def isJsWs (c : Nat) : Bool :=
  c = 9 ∨ c = 10 ∨ c = 11 ∨ c = 12 ∨ c = 13 ∨ c = 32 ∨ c = 160 ∨ c = 0x1680 ∨
  (0x2000 ≤ c ∧ c ≤ 0x200A) ∨ c = 0x2028 ∨ c = 0x2029 ∨ c = 0x202F ∨
  c = 0x205F ∨ c = 0x3000 ∨ c = 0xFEFF

/-- `s.replace(/\s+/g, '')`: drop every whitespace code point. -/
def stripWs (s : JsStr) : JsStr := s.filter (fun c => ¬ isJsWs c)

/-- `s.trim()`: drop leading and trailing whitespace. -/
def jsTrim (s : JsStr) : JsStr :=
  ((s.dropWhile isJsWs).reverse.dropWhile isJsWs).reverse

/-- ASCII digit test (`\d` without the `u` flag). -/
def isDigit (c : Nat) : Bool := 48 ≤ c ∧ c ≤ 57

/-- `/^\d+$/.test s`: nonempty and all ASCII digits. -/
def isNumericStr (s : JsStr) : Bool := ¬ s.isEmpty ∧ s.all isDigit

/-- JavaScript truthiness filter on an optional string: `undefined` and the
empty string are falsy, everything else passes through. -/
def jsTruthyOpt (o : Option JsStr) : Option JsStr :=
  match o with
  | none => none
  | some s => if s.isEmpty then none else some s

/-- `kpp ? kpp.trim() : absent` style: attach the trimmed value only when the
raw optional string is truthy. -/
def truthyTrim (o : Option JsStr) : Option JsStr :=
  (jsTruthyOpt o).map jsTrim

/-- Decimal digits of a natural number, most significant first (the fuel
argument only bounds the recursion depth; `n + 1` digits always suffice). -/
def natDigitsFuel : Nat → Nat → List Nat
  | 0, _ => []
  | fuel + 1, n =>
    if n < 10 then [48 + n]
    else natDigitsFuel fuel (n / 10) ++ [48 + n % 10]

/-- Decimal digits of a natural number, most significant first. -/
def natDigits (n : Nat) : List Nat := natDigitsFuel (n + 1) n

/-- JavaScript decimal rendering of an integer (template-literal `${n}`). -/
def intToStr (i : Int) : JsStr :=
  if i < 0 then 45 :: natDigits (-i).toNat else natDigits i.toNat

/-- `s.split(sep)` for a one-character separator. -/
def splitOnChar (sep : Nat) : JsStr → List JsStr
  | [] => [[]]
  | c :: rest =>
    match splitOnChar sep rest with
    | [] => if c = sep then [[], []] else [[c]]
    | h :: t => if c = sep then [] :: h :: t else (c :: h) :: t

/-- `parts.join(sep)` for a one-character separator. -/
def joinWith (sep : Nat) : List JsStr → JsStr
  | [] => []
  | [x] => x
  | x :: xs => x ++ sep :: joinWith sep xs

/-- `today.split('-').reverse().join('.')`: `YYYY-MM-DD` → `DD.MM.YYYY`. -/
def toWireDate (s : JsStr) : JsStr :=
  joinWith 46 (List.reverse (splitOnChar 45 s))

/-- Modelled from the spec: the inverse wire conversion `DD.MM.YYYY` →
`YYYY-MM-DD` used in the round-trip property; the repository only contains
the forward direction. -/
def fromWireDate (s : JsStr) : JsStr :=
  joinWith 45 (List.reverse (splitOnChar 46 s))

/-- Base64 alphabet. -/
def b64Char (n : Nat) : Nat :=
  if n < 26 then 65 + n
  else if n < 52 then 97 + (n - 26)
  else if n < 62 then 48 + (n - 52)
  else if n = 62 then 43 else 47

/-- `buffer.toString('base64')`: standard base64 with `=` padding. -/
def base64Encode : List Nat → JsStr
  | b1 :: b2 :: b3 :: rest =>
    b64Char (b1 / 4) :: b64Char ((b1 % 4) * 16 + b2 / 16) ::
      b64Char ((b2 % 16) * 4 + b3 / 64) :: b64Char (b3 % 64) :: base64Encode rest
  | [b1, b2] =>
    [b64Char (b1 / 4), b64Char ((b1 % 4) * 16 + b2 / 16), b64Char ((b2 % 16) * 4), 61]
  | [b1] => [b64Char (b1 / 4), b64Char ((b1 % 4) * 16), 61, 61]
  | [] => []

/-- UTF-16 code units of a code-point sequence (surrogate pairs above BMP). -/
def toUtf16Units : JsStr → List Nat
  | [] => []
  | c :: rest =>
    (if c < 0x10000 then [c]
     else [0xD800 + (c - 0x10000) / 0x400, 0xDC00 + (c - 0x10000) % 0x400]) ++
    toUtf16Units rest

/-- WHATWG UTF-8 decoding of a byte sequence, emitting U+FFFD for each maximal
invalid subpart (the behaviour of `Buffer.toString('utf8')`). -/
def utf8Decode : List Nat → List Nat
  | [] => []
  | b :: rest =>
    if b ≤ 0x7F then b :: utf8Decode rest
    else if 0xC2 ≤ b ∧ b ≤ 0xDF then
      match rest with
      | [] => [0xFFFD]
      | b2 :: r2 =>
        if 0x80 ≤ b2 ∧ b2 ≤ 0xBF then
          ((b - 0xC0) * 64 + (b2 - 0x80)) :: utf8Decode r2
        else 0xFFFD :: utf8Decode (b2 :: r2)
    else if 0xE0 ≤ b ∧ b ≤ 0xEF then
      match rest with
      | [] => [0xFFFD]
      | b2 :: r2 =>
        if (if b = 0xE0 then 0xA0 else 0x80) ≤ b2 ∧
            b2 ≤ (if b = 0xED then 0x9F else 0xBF) then
          match r2 with
          | [] => [0xFFFD]
          | b3 :: r3 =>
            if 0x80 ≤ b3 ∧ b3 ≤ 0xBF then
              ((b - 0xE0) * 4096 + (b2 - 0x80) * 64 + (b3 - 0x80)) :: utf8Decode r3
            else 0xFFFD :: utf8Decode (b3 :: r3)
        else 0xFFFD :: utf8Decode (b2 :: r2)
    else if 0xF0 ≤ b ∧ b ≤ 0xF4 then
      match rest with
      | [] => [0xFFFD]
      | b2 :: r2 =>
        if (if b = 0xF0 then 0x90 else 0x80) ≤ b2 ∧
            b2 ≤ (if b = 0xF4 then 0x8F else 0xBF) then
          match r2 with
          | [] => [0xFFFD]
          | b3 :: r3 =>
            if 0x80 ≤ b3 ∧ b3 ≤ 0xBF then
              match r3 with
              | [] => [0xFFFD]
              | b4 :: r4 =>
                if 0x80 ≤ b4 ∧ b4 ≤ 0xBF then
                  ((b - 0xF0) * 262144 + (b2 - 0x80) * 4096 +
                    (b3 - 0x80) * 64 + (b4 - 0x80)) :: utf8Decode r4
                else 0xFFFD :: utf8Decode (b4 :: r4)
            else 0xFFFD :: utf8Decode (b3 :: r3)
        else 0xFFFD :: utf8Decode (b2 :: r2)
    else 0xFFFD :: utf8Decode rest

/-- `Buffer.from(name, 'latin1').toString('utf8')`: reinterpret each UTF-16
code unit as a byte and re-decode the bytes as UTF-8 (mojibake repair). -/
def decodeFilename (name : JsStr) : JsStr :=
  utf8Decode ((toUtf16Units name).map (· % 256))

deriving instance DecidableEq for Except

/-- The `HttpError` class: an HTTP status code plus message. -/
structure HttpError where
  statusCode : Nat
  message : JsStr
deriving DecidableEq, Repr

/-- Raw identity fields of one trading party (`ParticipantInput`). -/
structure ParticipantInput where
  inn : Option JsStr := none
  kpp : Option JsStr := none
  lastName : Option JsStr := none
  firstName : Option JsStr := none
  middleName : Option JsStr := none
  snils : Option JsStr := none
deriving DecidableEq, Repr

/-- A resolved legal party: the `СвЮЛ` (organization) or `СвФЛ` (individual)
block produced by `buildParticipant`. -/
inductive Participant where
  | org (inn : JsStr) (kpp : Option JsStr)
  | ind (inn : JsStr) (lastName firstName middleName snils : Option JsStr)
deriving DecidableEq, Repr

/-- `buildParticipant` from `uiServer.ts`: validate and classify a raw
participant input by the normalized tax-id length. -/
def buildParticipant (p : ParticipantInput) : Except HttpError Participant :=
  match p.inn with
  | none => .error ⟨400, str "ИНН обязателен для формирования реквизитов"⟩
  | some inn =>
    if inn.isEmpty then
      .error ⟨400, str "ИНН обязателен для формирования реквизитов"⟩
    else
      let normalizedInn := stripWs inn
      if ¬ isNumericStr normalizedInn then
        .error ⟨400, str "ИНН должен содержать только цифры"⟩
      else if normalizedInn.length = 10 then
        .ok (.org normalizedInn (truthyTrim p.kpp))
      else if normalizedInn.length = 12 then
        .ok (.ind normalizedInn (truthyTrim p.lastName) (truthyTrim p.firstName)
          (truthyTrim p.middleName) (truthyTrim p.snils))
      else
        .error ⟨400, str "ИНН должен содержать 10 или 12 цифр"⟩

/-! ### Calendar arithmetic (ECMAScript `Date.UTC` day numbers) -/

/-- Days since 1970-01-01 of a civil date (proleptic Gregorian calendar,
`1 ≤ m ≤ 12`); the standard era-based formula. -/
def daysFromCivil (y m d : Int) : Int :=
  let yAdj := if m ≤ 2 then y - 1 else y
  let era := yAdj / 400
  let yoe := yAdj - era * 400
  let mp := (m + 9) % 12
  let doy := (153 * mp + 2) / 5 + d - 1
  let doe := yoe * 365 + yoe / 4 - yoe / 100 + doy
  era * 146097 + doe - 719468

/-- Day number of January 1st of a year. -/
def jan1 (y : Int) : Int := daysFromCivil y 1 1

/-- ECMAScript `YearFromTime`: the year whose January 1st is the last one not
after the given day (model of `getUTCFullYear` on a midnight-UTC date).
Computed by a linear estimate plus adjustment; `yearOfDay_spec` below proves
the defining property. -/
def yearOfDay (z : Int) : Int :=
  let a := (400 * z) / 146097 + 1970
  if z < jan1 (a - 1) then a - 2
  else if z < jan1 a then a - 1
  else if z < jan1 (a + 1) then a
  else if z < jan1 (a + 2) then a + 1
  else a + 2

/-- ECMAScript `MakeDay(year, monthIndex, day)`: months outside `0..11` roll
into adjacent years, days are plain offsets from the 1st. -/
def jsMakeDay (year monthIndex day : Int) : Int :=
  let ym := year + monthIndex / 12
  let mn := monthIndex % 12
  daysFromCivil ym (mn + 1) 1 + (day - 1)

/-- `Date.UTC(year, month - 1, day)` as a day number: applies the
`MakeFullYear` two-digit-year rule (0..99 ↦ 1900..1999) before `MakeDay`. -/
def jsDateUTC (year month day : Int) : Int :=
  let yr := if 0 ≤ year ∧ year ≤ 99 then 1900 + year else year
  jsMakeDay yr (month - 1) day

/-- `getUTCDay`: 0 = Sunday … 6 = Saturday (1970-01-01 was a Thursday). -/
def jsGetUTCDay (z : Int) : Int := (z + 4) % 7

/-- `Math.ceil(a / b)` for integer `a` and positive integer `b`. -/
def jsCeilDiv (a b : Int) : Int := - ((- a) / b)

/-- The `getIsoWeek` helper from `extractWeekDescription`, on day numbers:
move to the Thursday of the date's (Monday-based) week, then count weeks from
January 1st of the Thursday's year.  The millisecond difference in the source
is an exact multiple of 86400000, so it is carried here directly in days. -/
def getIsoWeek (z : Int) : Int :=
  let dayNum := if jsGetUTCDay z = 0 then 7 else jsGetUTCDay z
  let target := z + 4 - dayNum
  let yearStart := jsDateUTC (yearOfDay target) 1 1
  jsCeilDiv ((target - yearStart) + 1) 7

/-! ### Reference ISO-8601 week numbering (modelled from the spec's words:
Monday-start weeks, week 1 is the week containing the year's first Thursday) -/

/-- ISO day-of-week: 1 = Monday … 7 = Sunday. -/
def isoDow (z : Int) : Int := (z + 3) % 7 + 1

/-- The first Thursday of a year: the least Thursday not before January 1st. -/
def firstThursday (y : Int) : Int :=
  jan1 y + (4 - isoDow (jan1 y)) % 7

/-- The Monday starting ISO week 1 of a year (the week that contains the
year's first Thursday). -/
def week1Monday (y : Int) : Int := firstThursday y - 3

/-- The Monday starting the week of a day. -/
def mondayOf (z : Int) : Int := z - (isoDow z - 1)

/-- Reference ISO-8601 week number of a day: the position of its Monday-start
week within the numbering of the year whose week 1 contains it. -/
def isoWeekOfDay (z : Int) : Int :=
  let c := yearOfDay z
  let mon := mondayOf z
  let yiso :=
    if mon < week1Monday c then c - 1
    else if week1Monday (c + 1) ≤ mon then c + 1
    else c
  (mon - week1Monday yiso) / 7 + 1

/-- Reference ISO-8601 week number of a valid civil date. -/
def isoWeekOfDate (y m d : Int) : Int := isoWeekOfDay (daysFromCivil y m d)

/-- Leap year in the proleptic Gregorian calendar. -/
def isLeap (y : Int) : Bool := (y % 4 = 0 ∧ y % 100 ≠ 0) ∨ y % 400 = 0

/-- Days in a month of the civil calendar. -/
def daysInMonth (y m : Int) : Int :=
  if m = 2 then (if isLeap y then 29 else 28)
  else if m = 4 ∨ m = 6 ∨ m = 9 ∨ m = 11 then 30
  else 31

/-- The three components form a valid calendar date. -/
def validDate (y m d : Int) : Prop :=
  1 ≤ m ∧ m ≤ 12 ∧ 1 ≤ d ∧ d ≤ daysInMonth y m

instance (y m d : Int) : Decidable (validDate y m d) := by
  unfold validDate; infer_instance

/-! ### Filename scanning (`extractWeekDescription`, `parseInnKppFromFilename`) -/

/-- Try the regex `(\d{2})-(\d{2})-(\d{4})` at the head of the list, returning
the numeric `(day, month, year)` on a match. -/
def dateMatchAt : JsStr → Option (Int × Int × Int)
  | d1 :: d2 :: h1 :: m1 :: m2 :: h2 :: y1 :: y2 :: y3 :: y4 :: _ =>
    if isDigit d1 ∧ isDigit d2 ∧ h1 = 45 ∧ isDigit m1 ∧ isDigit m2 ∧ h2 = 45 ∧
        isDigit y1 ∧ isDigit y2 ∧ isDigit y3 ∧ isDigit y4 then
      some (((d1 - 48) * 10 + (d2 - 48) : Nat),
            ((m1 - 48) * 10 + (m2 - 48) : Nat),
            ((y1 - 48) * 1000 + (y2 - 48) * 100 + (y3 - 48) * 10 + (y4 - 48) : Nat))
    else none
  | _ => none

/-- Leftmost match of `(\d{2})-(\d{2})-(\d{4})` in a string. -/
def firstDateMatch : JsStr → Option (Int × Int × Int)
  | [] => none
  | c :: rest =>
    match dateMatchAt (c :: rest) with
    | some r => some r
    | none => firstDateMatch rest

/-- The weekly-report label produced for a week number. -/
def weekLabel (w : Int) : JsStr :=
  str "Еженедельный отчет по выручке и наценке (" ++ intToStr w ++ str " неделя)"

/-- `extractWeekDescription` from `uiServer.ts`: find a `DD-MM-YYYY` pattern,
build a `Date.UTC` day number (the digit-parsed components are never `NaN`),
check the `Date` time value is in range, and render the week label. -/
def extractWeekDescription (name : JsStr) : Option JsStr :=
  match firstDateMatch name with
  | none => none
  | some (day, month, year) =>
    let z := jsDateUTC year month day
    if z < -100000000 ∨ 100000000 < z then none
    else some (weekLabel (getIsoWeek z))

/-! ### JSON values (`JSON.parse` results and field access) -/

/-- A parsed JSON value, as accessed by the source (`json?.result`,
`result?.Документ?.Идентификатор`, `json?.error?.message`). -/
inductive JVal where
  | null
  | bool (b : Bool)
  | num (n : Int)
  | jstr (s : JsStr)
  | arr (xs : List JVal)
  | obj (fields : List (JsStr × JVal))

/-- JavaScript truthiness of a JSON value. -/
def jvTruthy : JVal → Bool
  | .null => false
  | .bool b => b
  | .num n => n ≠ 0
  | .jstr s => ¬ s.isEmpty
  | .arr _ => true
  | .obj _ => true

/-- Optional-chained property access `v?.k`: `undefined` (`none`) unless `v`
is an object carrying the key. -/
def jvField (v : Option JVal) (k : String) : Option JVal :=
  match v with
  | some (.obj fields) => (fields.lookup (str k))
  | _ => none

/-- `a || b || null` over possibly-undefined JSON values: the first truthy
operand, else `null`/`undefined` collapsed to `none`. -/
def jvFirstTruthy (a b : Option JVal) : Option JVal :=
  match a with
  | some v => if jvTruthy v then some v else
      match b with
      | some w => if jvTruthy w then some w else none
      | none => none
  | none =>
      match b with
      | some w => if jvTruthy w then some w else none
      | none => none

mutual

/-- JavaScript `ToString` of a JSON value (used when an error message turns
out not to be a string). -/
def jvToString : JVal → JsStr
  | .null => str "null"
  | .bool b => if b then str "true" else str "false"
  | .num n => intToStr n
  | .jstr s => s
  | .arr xs => jvListToString xs
  | .obj _ => str "[object Object]"

/-- `Array.prototype.toString`: elements joined with commas, `null` elements
rendered empty. -/
def jvListToString : List JVal → JsStr
  | [] => []
  | [.null] => []
  | [v] => jvToString v
  | .null :: rest => 44 :: jvListToString rest
  | v :: rest => jvToString v ++ 44 :: jvListToString rest

end

/-! ### The upload pipeline (`performUpload`) -/

/-- An uploaded file as seen by the server: the multipart `originalname` and
the buffered bytes. -/
structure JsFile where
  originalname : Option JsStr
  buffer : List Nat
deriving DecidableEq, Repr

/-- The parameters of `performUpload`. -/
structure UploadParams where
  sessionId : Option JsStr := none
  docBaseUrl : Option JsStr := none
  client : ParticipantInput := {}
  our : ParticipantInput := {}
  docType : Option JsStr := none
  number : Option JsStr := none
  date : Option JsStr := none
  note : Option JsStr := none
  file : Option JsFile := none
deriving DecidableEq, Repr

/-- One attachment (`Вложение`) of the wire request. -/
structure Attachment where
  ident : JsStr
  tip : JsStr
  podtip : JsStr
  nazvanie : JsStr
  fileData : JsStr
  fileName : JsStr
deriving DecidableEq, Repr

/-- The `Документ` block of the wire request. -/
structure DocBlock where
  vlozhenie : List Attachment
  datum : JsStr
  nomer : JsStr
  ident : JsStr
  kontragent : Participant
  nashaOrg : Participant
  primechanie : JsStr
  tip : JsStr
deriving DecidableEq, Repr

/-- A request delivered to the transport: target URL plus the JSON-RPC
envelope `СБИС.ЗаписатьДокумент`. -/
structure SentReq where
  url : JsStr
  jsonrpc : JsStr
  rpcMethod : JsStr
  doc : DocBlock
  rpcId : Nat
deriving DecidableEq, Repr

/-- What the transport collaborator returns for one request: HTTP status
data, the body text, and the result of `JSON.parse` on it (`none` both for a
parse failure and for a literal `null`, exactly as the source collapses
them). -/
structure TransportResp where
  ok : Bool
  status : Nat
  statusText : JsStr
  text : JsStr
  json : Option JVal

/-- The `UploadResult` returned by `performUpload`. -/
structure UploadResult where
  status : Nat
  statusText : JsStr
  rawBody : JsStr
  jsonBody : Option JVal
  documentId : Option JVal

/-- The default service URL. -/
def defaultServiceUrl : JsStr := str "https://online.sbis.ru/service/?srv=1"

/-- The pure prefix of `performUpload`: every validation and the construction
of the wire request, in source order.  `docId`/`attId` stand for the two
`randomUUID()` draws and `todayOracle` for `new Date().toISOString().slice(0, 10)`. -/
def buildUploadRequest (docId attId todayOracle : JsStr) (p : UploadParams) :
    Except HttpError SentReq :=
  match jsTruthyOpt p.sessionId with
  | none => .error ⟨400, str "sessionId (X-SBISSessionID) обязателен"⟩
  | some _ =>
  match p.file with
  | none => .error ⟨400, str "Файл обязателен"⟩
  | some file =>
  match jsTruthyOpt p.client.inn, jsTruthyOpt p.our.inn with
  | none, _ => .error ⟨400, str "clientInn и ourInn обязательны для загрузки"⟩
  | _, none => .error ⟨400, str "clientInn и ourInn обязательны для загрузки"⟩
  | some clientInn, some _ =>
  let serviceUrl := (jsTruthyOpt (p.docBaseUrl.map jsTrim)).getD defaultServiceUrl
  let fileNameUtf := decodeFilename ((jsTruthyOpt file.originalname).getD (str "document.docx"))
  let description := extractWeekDescription fileNameUtf
  let normalizedNote := p.note.map jsTrim
  let today := (jsTruthyOpt p.date).getD todayOracle
  let normalizedClientInn := stripWs clientInn
  let effectiveClientKpp := p.client.kpp.map jsTrim
  if normalizedClientInn.length = 10 ∧ (jsTruthyOpt effectiveClientKpp).isNone then
    .error ⟨400, str "Для ИНН с 10 цифрами необходимо указать КПП (например, добавьте его в имя файла)."⟩
  else
    match buildParticipant { inn := some normalizedClientInn
                             kpp := effectiveClientKpp
                             lastName := p.client.lastName
                             firstName := p.client.firstName
                             middleName := p.client.middleName
                             snils := p.client.snils } with
    | .error e => .error e
    | .ok counterparty =>
    match buildParticipant { inn := p.our.inn
                             kpp := p.our.kpp
                             lastName := p.our.lastName
                             firstName := p.our.firstName
                             middleName := p.our.middleName
                             snils := p.our.snils } with
    | .error e => .error e
    | .ok ourSide =>
      let attachment : Attachment :=
        { ident := attId
          tip := str "Прочее"
          podtip := str "Приложение"
          nazvanie := fileNameUtf
          fileData := base64Encode file.buffer
          fileName := fileNameUtf }
      let docBlock : DocBlock :=
        { vlozhenie := [attachment]
          datum := toWireDate today
          nomer := (jsTruthyOpt p.number).getD []
          ident := docId
          kontragent := counterparty
          nashaOrg := ourSide
          primechanie := (jsTruthyOpt normalizedNote).getD ((jsTruthyOpt description).getD [])
          tip := (jsTruthyOpt p.docType).getD (str "ДоговорИсх") }
      .ok { url := serviceUrl
            jsonrpc := str "2.0"
            rpcMethod := str "СБИС.ЗаписатьДокумент"
            rpcId := 0
            doc := docBlock }

/-- The response-interpretation suffix of `performUpload`: extract the created
document id, raise `HttpError` on a non-ok status, otherwise return the
result record. -/
def interpretResponse (r : TransportResp) : Except HttpError UploadResult :=
  let result := jvField r.json "result"
  let createdDocumentId :=
    jvFirstTruthy (jvField (jvField result "Документ") "Идентификатор")
      (jvField result "Идентификатор")
  if ¬ r.ok then
    let errorMessage :=
      match jvField (jvField r.json "error") "message" with
      | some v => if jvTruthy v then jvToString v else r.statusText
      | none => r.statusText
    .error ⟨r.status, errorMessage⟩
  else
    .ok { status := r.status, statusText := r.statusText, rawBody := r.text,
          jsonBody := r.json, documentId := createdDocumentId }

/-- `performUpload`, with the remote exchange as an explicit transport
function; also returns the list of requests actually handed to the transport
so that "no network call is attempted" is a provable statement. -/
def performUpload (transport : SentReq → TransportResp)
    (docId attId todayOracle : JsStr) (p : UploadParams) :
    Except HttpError UploadResult × List SentReq :=
  match buildUploadRequest docId attId todayOracle p with
  | .error e => (.error e, [])
  | .ok req => (interpretResponse (transport req), [req])

/-! ### Filename identity scanning (`parseInnKppFromFilename`) -/

/-- Case-insensitive match of the Cyrillic letter И. -/
def isCyrI (c : Nat) : Bool := c = 0x418 ∨ c = 0x438

/-- Case-insensitive match of the Cyrillic letter Н. -/
def isCyrN (c : Nat) : Bool := c = 0x41D ∨ c = 0x43D

/-- Case-insensitive match of the Cyrillic letter К. -/
def isCyrK (c : Nat) : Bool := c = 0x41A ∨ c = 0x43A

/-- Case-insensitive match of the Cyrillic letter П. -/
def isCyrP (c : Nat) : Bool := c = 0x41F ∨ c = 0x43F

/-- Try `/ИНН(\d{12}|\d{10})/i` at the head: the label followed by twelve
digits, or failing that ten. -/
def innMatchAt : JsStr → Option JsStr
  | a :: b :: c :: rest =>
    if isCyrI a ∧ isCyrN b ∧ isCyrN c then
      if (rest.take 12).length = 12 ∧ (rest.take 12).all isDigit then
        some (rest.take 12)
      else if (rest.take 10).length = 10 ∧ (rest.take 10).all isDigit then
        some (rest.take 10)
      else none
    else none
  | _ => none

/-- Leftmost match of `/ИНН(\d{12}|\d{10})/i`. -/
def firstInnMatch : JsStr → Option JsStr
  | [] => none
  | c :: rest =>
    match innMatchAt (c :: rest) with
    | some r => some r
    | none => firstInnMatch rest

/-- Try `/КПП(\d{9})/i` at the head. -/
def kppMatchAt : JsStr → Option JsStr
  | a :: b :: c :: rest =>
    if isCyrK a ∧ isCyrP b ∧ isCyrP c then
      if (rest.take 9).length = 9 ∧ (rest.take 9).all isDigit then
        some (rest.take 9)
      else none
    else none
  | _ => none

/-- Leftmost match of `/КПП(\d{9})/i`. -/
def firstKppMatch : JsStr → Option JsStr
  | [] => none
  | c :: rest =>
    match kppMatchAt (c :: rest) with
    | some r => some r
    | none => firstKppMatch rest

/-- `parseInnKppFromFilename`: repair the filename encoding, then scan for the
labeled tax id and registration code. -/
def parseInnKppFromFilename (name : JsStr) : Option JsStr × Option JsStr :=
  let decoded := decodeFilename name
  (firstInnMatch decoded, firstKppMatch decoded)

/-! ### Batch submission (`POST /api/upload/batch` loop) -/

/-- The fields shared across one batch request body. -/
structure BatchShared where
  sessionId : Option JsStr := none
  docBaseUrl : Option JsStr := none
  ourInn : Option JsStr := none
  ourKpp : Option JsStr := none
  ourLastName : Option JsStr := none
  ourFirstName : Option JsStr := none
  ourMiddleName : Option JsStr := none
  ourSnils : Option JsStr := none
  docType : Option JsStr := none
  number : Option JsStr := none
  date : Option JsStr := none
  note : Option JsStr := none
deriving DecidableEq, Repr

/-- One entry pushed onto `results` (absent JSON fields as `none`). -/
structure BatchItem where
  fileName : Option JsStr
  ok : Bool
  documentId : Option (Option JVal) := none
  error : Option JsStr := none

/-- The aggregated batch response. -/
structure BatchResult where
  total : Nat
  results : List BatchItem

/-- One iteration of the batch loop: derive the counterparty from the
filename; files without an extractable tax id are recorded failed and skipped;
otherwise run `performUpload` and record its outcome either way. -/
def processFile (transport : SentReq → TransportResp) (todayOracle : JsStr)
    (shared : BatchShared) (ids : JsStr × JsStr) (file : JsFile) :
    BatchItem × List SentReq :=
  let parsed := parseInnKppFromFilename (file.originalname.getD [])
  match parsed.1 with
  | none => ({ fileName := file.originalname, ok := false,
               error := some (str "Не найден ИНН в названии файла") }, [])
  | some inn =>
    match performUpload transport ids.1 ids.2 todayOracle
        { sessionId := shared.sessionId
          docBaseUrl := shared.docBaseUrl
          client := { inn := some inn, kpp := parsed.2 }
          our := { inn := shared.ourInn
                   kpp := shared.ourKpp
                   lastName := shared.ourLastName
                   firstName := shared.ourFirstName
                   middleName := shared.ourMiddleName
                   snils := shared.ourSnils }
          docType := shared.docType
          number := shared.number
          date := shared.date
          note := shared.note
          file := some file } with
    | (.ok res, log) =>
      ({ fileName := file.originalname, ok := true, documentId := some res.documentId }, log)
    | (.error e, log) =>
      ({ fileName := file.originalname, ok := false, error := some e.message }, log)

/-- The batch loop, threading the per-file `randomUUID()` draws by input
position. -/
def runBatchAux (transport : SentReq → TransportResp) (todayOracle : JsStr)
    (shared : BatchShared) (ids : Nat → JsStr × JsStr) :
    Nat → List JsFile → List BatchItem × List SentReq
  | _, [] => ([], [])
  | i, f :: fs =>
    let (item, log) := processFile transport todayOracle shared (ids i) f
    let (rest, logs) := runBatchAux transport todayOracle shared ids (i + 1) fs
    (item :: rest, log ++ logs)

/-- The batch endpoint body after the nonempty-files guard: process every file
in order and report `{ total, results }`. -/
def runBatch (transport : SentReq → TransportResp) (todayOracle : JsStr)
    (shared : BatchShared) (ids : Nat → JsStr × JsStr) (files : List JsFile) :
    BatchResult × List SentReq :=
  let (items, logs) := runBatchAux transport todayOracle shared ids 0 files
  ({ total := files.length, results := items }, logs)

/-! ### `SabyClient` (session-token caching) -/

/-- The observable outcome of the authentication HTTP exchange: HTTP status
data plus the `token` field of the parsed body (absent when the body lacks
it); responses whose body fails `res.json()` or carries a non-string token
are outside this oracle. -/
structure AuthNet where
  ok : Bool
  status : Nat
  statusText : JsStr
  token : Option JsStr
deriving DecidableEq, Repr

/-- The mutable state of a `SabyClient` instance: the cached `this.token`. -/
structure SabyState where
  token : Option JsStr
deriving DecidableEq, Repr

/-- The un-cached path of `SabyClient.authenticate`: issue one request (the
final `Nat` counts issued authentication requests), fail on a non-ok
response, otherwise store and return `data.token`. -/
def authIssue (net : AuthNet) (s : SabyState) :
    SabyState × Except JsStr (Option JsStr) × Nat :=
  if ¬ net.ok then
    (s, .error (str "Saby auth failed: " ++ intToStr net.status ++ 32 :: net.statusText), 1)
  else
    ({ token := net.token }, .ok net.token, 1)

/-- `SabyClient.authenticate`: return the cached token when it is truthy,
otherwise perform the exchange. -/
def SabyClient.authenticate (net : AuthNet) (s : SabyState) :
    SabyState × Except JsStr (Option JsStr) × Nat :=
  match s.token with
  | some t => if ¬ t.isEmpty then (s, .ok (some t), 0) else authIssue net s
  | none => authIssue net s

/-- The observable outcome of the upload HTTP exchange of
`uploadDraftDocument`. -/
structure UpNet where
  auth : AuthNet
  upOk : Bool
  upStatus : Nat
  upStatusText : JsStr
  upJson : JVal

/-- `SabyClient.uploadDraftDocument`: authenticate first (possibly issuing an
authentication request), then perform the upload exchange; only
authentication requests are counted. -/
def SabyClient.uploadDraftDocument (net : UpNet) (s : SabyState) :
    SabyState × Except JsStr JVal × Nat :=
  match SabyClient.authenticate net.auth s with
  | (s2, .error e, n) => (s2, .error e, n)
  | (s2, .ok _, n) =>
    if ¬ net.upOk then
      (s2, .error (str "Upload draft failed: " ++ intToStr net.upStatus ++
        32 :: net.upStatusText), n)
    else (s2, .ok net.upJson, n)

/-- An operation issued against one client instance during its lifetime. -/
inductive SabyOp where
  | auth (net : AuthNet)
  | upload (net : UpNet)

/-- Run a sequence of operations, accumulating the number of authentication
requests issued. -/
def runSabyOps (s : SabyState) : List SabyOp → SabyState × Nat
  | [] => (s, 0)
  | .auth net :: rest =>
    match SabyClient.authenticate net s with
    | (s2, _, n) => ((runSabyOps s2 rest).1, n + (runSabyOps s2 rest).2)
  | .upload net :: rest =>
    match SabyClient.uploadDraftDocument net s with
    | (s2, _, n) => ((runSabyOps s2 rest).1, n + (runSabyOps s2 rest).2)


/-! ## Helper lemmas -/

theorem jan1_formula (y : Int) :
    jan1 y = 365 * (y - 1) + (y - 1) / 4 - (y - 1) / 100 + (y - 1) / 400 - 719162 := by
  unfold jan1 daysFromCivil
  norm_num
  omega

theorem jan1_gap (y1 y2 : Int) (h : y1 < y2) : jan1 y1 + 363 ≤ jan1 y2 := by
  rw [jan1_formula, jan1_formula]
  omega

theorem yearOfDay_spec (z : Int) : jan1 (yearOfDay z) ≤ z ∧ z < jan1 (yearOfDay z + 1) := by
  unfold yearOfDay
  dsimp only
  set a := 400 * z / 146097 + 1970 with ha
  have hbrack : jan1 (a - 2) ≤ z ∧ z < jan1 (a + 3) := by
    rw [jan1_formula, jan1_formula, ha]
    omega
  have e1 : a - 2 + 1 = a - 1 := by ring
  have e2 : a - 1 + 1 = a := by ring
  have e3 : a + 1 + 1 = a + 2 := by ring
  have e4 : a + 2 + 1 = a + 3 := by ring
  split_ifs with h1 h2 h3 h4
  · exact ⟨hbrack.1, by rw [e1]; exact h1⟩
  · exact ⟨by omega, by rw [e2]; exact h2⟩
  · exact ⟨by omega, h3⟩
  · exact ⟨by omega, by rw [e3]; exact h4⟩
  · exact ⟨by omega, by rw [e4]; exact hbrack.2⟩

theorem jan1_mono {y1 y2 : Int} (h : y1 ≤ y2) : jan1 y1 ≤ jan1 y2 := by
  rcases eq_or_lt_of_le h with he | hl
  · rw [he]
  · have := jan1_gap y1 y2 hl; omega

theorem isoDow_range (z : Int) : 1 ≤ isoDow z ∧ isoDow z ≤ 7 := by
  unfold isoDow; omega

theorem isoDow_thursday (z : Int) : isoDow (z + 4 - isoDow z) = 4 := by
  unfold isoDow; omega

theorem isoDow_sub_mod (a b : Int) (h : isoDow a = isoDow b) : (a - b) % 7 = 0 := by
  unfold isoDow at h; omega

theorem firstThursday_bounds (y : Int) :
    jan1 y ≤ firstThursday y ∧ firstThursday y ≤ jan1 y + 6 := by
  unfold firstThursday isoDow; omega

theorem isoDow_firstThursday (y : Int) : isoDow (firstThursday y) = 4 := by
  unfold firstThursday isoDow; omega

theorem week1Monday_gap (y1 y2 : Int) (h : y1 < y2) :
    week1Monday y1 + 357 ≤ week1Monday y2 := by
  unfold week1Monday
  have h1 := firstThursday_bounds y1
  have h2 := firstThursday_bounds y2
  have := jan1_gap y1 y2 h
  omega

theorem week1Monday_mono {y1 y2 : Int} (h : y1 ≤ y2) :
    week1Monday y1 ≤ week1Monday y2 := by
  rcases eq_or_lt_of_le h with he | hl
  · rw [he]
  · have := week1Monday_gap y1 y2 hl; omega

theorem week1Monday_bracket_unique (m y1 y2 : Int)
    (ha : week1Monday y1 ≤ m) (hb : m < week1Monday (y1 + 1))
    (hc : week1Monday y2 ≤ m) (hd : m < week1Monday (y2 + 1)) : y1 = y2 := by
  by_contra hne
  rcases lt_or_gt_of_ne hne with hl | hl
  · have := week1Monday_mono (show y1 + 1 ≤ y2 by omega); omega
  · have := week1Monday_mono (show y2 + 1 ≤ y1 by omega); omega

theorem validDate_bracket (y m d : Int) (h : validDate y m d) :
    jan1 y ≤ daysFromCivil y m d ∧ daysFromCivil y m d < jan1 (y + 1) := by
  obtain ⟨h1, h2, h3, h4⟩ := h
  unfold daysInMonth isLeap at h4
  unfold jan1 daysFromCivil
  dsimp only
  split_ifs at h4 <;> split_ifs <;> omega

theorem jsMakeDay_valid (y m d : Int) (h1 : 1 ≤ m) (h2 : m ≤ 12) :
    jsMakeDay y (m - 1) d = daysFromCivil y m d := by
  unfold jsMakeDay daysFromCivil
  dsimp only
  have hdiv : (m - 1) / 12 = 0 := by omega
  have hmod : (m - 1) % 12 = m - 1 := by omega
  rw [hdiv, hmod]
  split_ifs <;> omega

theorem jsDateUTC_valid (y m d : Int) (h1 : 1 ≤ m) (h2 : m ≤ 12) (hy : 100 ≤ y) :
    jsDateUTC y m d = daysFromCivil y m d := by
  unfold jsDateUTC
  dsimp only
  rw [if_neg (by omega)]
  exact jsMakeDay_valid y m d h1 h2

/-- The week computation of `extractWeekDescription` agrees with the reference
ISO-8601 week numbering whenever the Thursday of the week falls in a year
outside 0..99 (inside that band the source's `Date.UTC(getUTCFullYear(), 0, 1)`
re-applies the two-digit-year rule to the year start). -/
theorem getIsoWeek_eq_ref (z : Int) (hy100 : 100 ≤ yearOfDay (z + 4 - isoDow z)) :
    getIsoWeek z = isoWeekOfDay z := by
  have hdz := isoDow_range z
  have hTdow : isoDow (z + 4 - isoDow z) = 4 := isoDow_thursday z
  have hTb := yearOfDay_spec (z + 4 - isoDow z)
  set T := z + 4 - isoDow z with hT
  set ty := yearOfDay T with hty
  have hftb := firstThursday_bounds ty
  have hftb1 := firstThursday_bounds (ty + 1)
  have hmod : (T - firstThursday ty) % 7 = 0 :=
    isoDow_sub_mod _ _ (by rw [hTdow, isoDow_firstThursday])
  have hTge : firstThursday ty ≤ T := by omega
  have hTlt : T < firstThursday (ty + 1) := by omega
  have hmon : mondayOf z = T - 3 := by unfold mondayOf; omega
  have htyb1 : week1Monday ty ≤ mondayOf z := by unfold week1Monday; omega
  have htyb2 : mondayOf z < week1Monday (ty + 1) := by unfold week1Monday; omega
  have harg : (if jsGetUTCDay z = 0 then (7 : Int) else jsGetUTCDay z) = isoDow z := by
    unfold jsGetUTCDay isoDow; split_ifs <;> omega
  have hgw : getIsoWeek z = jsCeilDiv (T - jan1 ty + 1) 7 := by
    unfold getIsoWeek
    dsimp only
    rw [harg, ← hT, ← hty, jsDateUTC_valid ty 1 1 (by omega) (by omega) (by rw [hty, hT]; exact hy100)]
    rfl
  rw [hgw]
  unfold isoWeekOfDay
  dsimp only
  set c := yearOfDay z with hc
  have hzb := yearOfDay_spec z
  rw [← hc] at hzb
  have hg1 := jan1_gap (c - 1) c (by omega)
  have hg2 := jan1_gap (c + 1) (c + 2) (by omega)
  have hfc := firstThursday_bounds c
  have hfcm := firstThursday_bounds (c - 1)
  have hfcp := firstThursday_bounds (c + 1)
  have hfcpp := firstThursday_bounds (c + 2)
  have hmonz : z - 6 ≤ mondayOf z ∧ mondayOf z ≤ z := by unfold mondayOf; omega
  split_ifs with ha hb
  · have hbr1 : week1Monday (c - 1) ≤ mondayOf z := by
      unfold week1Monday; omega
    have hbr2 : mondayOf z < week1Monday (c - 1 + 1) := by
      rw [show c - 1 + 1 = c by ring]; exact ha
    have heq : c - 1 = ty := week1Monday_bracket_unique (mondayOf z) _ _ hbr1 hbr2 htyb1 htyb2
    rw [heq]
    unfold week1Monday jsCeilDiv
    omega
  · have hbr2 : mondayOf z < week1Monday (c + 1 + 1) := by
      rw [show c + 1 + 1 = c + 2 by ring]
      unfold week1Monday; omega
    have heq : c + 1 = ty := week1Monday_bracket_unique (mondayOf z) _ _ hb hbr2 htyb1 htyb2
    rw [heq]
    unfold week1Monday jsCeilDiv
    omega
  · have hbr1 : week1Monday c ≤ mondayOf z := by omega
    have heq : c = ty := week1Monday_bracket_unique (mondayOf z) _ _ hbr1 (by omega) htyb1 htyb2
    rw [heq]
    unfold week1Monday jsCeilDiv
    omega

theorem daysFromCivil_smallRange (y m d : Int) (h : validDate y m d)
    (hy1 : 0 ≤ y) (hy2 : y ≤ 9999) :
    -100000000 ≤ daysFromCivil y m d ∧ daysFromCivil y m d ≤ 100000000 := by
  have hb := validDate_bracket y m d h
  have hlo : (-800000 : Int) ≤ jan1 y := by rw [jan1_formula]; omega
  have hhi : jan1 (y + 1) ≤ 3000000 := by rw [jan1_formula]; omega
  omega

theorem dateMatchAt_bounds (s : JsStr) (d m y : Int) (h : dateMatchAt s = some (d, m, y)) :
    0 ≤ d ∧ d ≤ 99 ∧ 0 ≤ m ∧ m ≤ 99 ∧ 0 ≤ y ∧ y ≤ 9999 := by
  unfold dateMatchAt at h
  split at h
  · split_ifs at h with hc
    · simp only [isDigit, decide_eq_true_eq] at hc
      injection h with h
      simp only [Prod.mk.injEq] at h
      obtain ⟨hd, hm, hy⟩ := h
      subst hd; subst hm; subst hy
      omega
  · simp at h

theorem firstDateMatch_bounds (s : JsStr) (d m y : Int)
    (h : firstDateMatch s = some (d, m, y)) :
    0 ≤ d ∧ d ≤ 99 ∧ 0 ≤ m ∧ m ≤ 99 ∧ 0 ≤ y ∧ y ≤ 9999 := by
  induction s with
  | nil => simp [firstDateMatch] at h
  | cons c rest ih =>
    unfold firstDateMatch at h
    rcases hdm : dateMatchAt (c :: rest) with _ | r
    · rw [hdm] at h
      exact ih h
    · rw [hdm] at h
      injection h with h
      subst h
      exact dateMatchAt_bounds _ _ _ _ hdm

/-- Core of C4: when the matched components form a valid calendar date with a
year of at least 100, the produced label embeds the reference ISO week. -/
theorem yearOfDay_thursday_ge (y m d : Int) (hv : validDate y m d) :
    y - 1 ≤ yearOfDay (daysFromCivil y m d + 4 - isoDow (daysFromCivil y m d)) := by
  have hb := validDate_bracket y m d hv
  have hdow := isoDow_range (daysFromCivil y m d)
  set T := daysFromCivil y m d + 4 - isoDow (daysFromCivil y m d) with hT
  have hTs := yearOfDay_spec T
  by_contra hlt
  push_neg at hlt
  have : yearOfDay T + 1 ≤ y - 1 := by omega
  have hm1 : jan1 (yearOfDay T + 1) ≤ jan1 (y - 1) := jan1_mono this
  have hg : jan1 (y - 1) + 363 ≤ jan1 y := jan1_gap _ _ (by omega)
  omega

/-- Core of C4: when the matched components form a valid calendar date with a
year of at least 101, the produced label embeds the reference ISO week (the
year bound keeps both the date's year and its week's Thursday outside the
two-digit-year band 0..99). -/
theorem extractWeek_isoCorrect (name : JsStr) (d m y : Int)
    (hm : firstDateMatch name = some (d, m, y)) (hv : validDate y m d) (hy : 101 ≤ y) :
    extractWeekDescription name = some (weekLabel (isoWeekOfDate y m d)) := by
  have hb := firstDateMatch_bounds name d m y hm
  unfold extractWeekDescription
  rw [hm]
  dsimp only
  rw [jsDateUTC_valid y m d hv.1 hv.2.1 (by omega)]
  have hr := daysFromCivil_smallRange y m d hv (by omega) (by omega)
  rw [if_neg (by omega)]
  unfold isoWeekOfDate
  have hth := yearOfDay_thursday_ge y m d hv
  rw [getIsoWeek_eq_ref _ (by omega)]

theorem buildUploadRequest_ok_fields (docId attId today : JsStr) (p : UploadParams)
    (req : SentReq) (hok : buildUploadRequest docId attId today p = .ok req) :
    ∃ f, p.file = some f ∧
      req.doc.primechanie = (jsTruthyOpt (p.note.map jsTrim)).getD
        ((jsTruthyOpt (extractWeekDescription (decodeFilename
          ((jsTruthyOpt f.originalname).getD (str "document.docx"))))).getD []) ∧
      req.doc.datum = toWireDate ((jsTruthyOpt p.date).getD today) ∧
      buildParticipant { inn := p.our.inn, kpp := p.our.kpp, lastName := p.our.lastName,
                         firstName := p.our.firstName, middleName := p.our.middleName,
                         snils := p.our.snils } = .ok req.doc.nashaOrg := by
  unfold buildUploadRequest at hok
  rcases hsid : jsTruthyOpt p.sessionId with _ | sid <;> rw [hsid] at hok
  · first
    | exact Except.noConfusion hok
    | simp at hok
  rcases hfile : p.file with _ | f <;> rw [hfile] at hok
  · first
    | exact Except.noConfusion hok
    | simp at hok
  rcases hci : jsTruthyOpt p.client.inn with _ | ci <;> rw [hci] at hok
  · first
    | exact Except.noConfusion hok
    | simp at hok
  rcases hoi : jsTruthyOpt p.our.inn with _ | oi <;> rw [hoi] at hok
  · first
    | exact Except.noConfusion hok
    | simp at hok
  dsimp only at hok
  split_ifs at hok with hkpp
  rcases hbc : buildParticipant { inn := some (stripWs ci)
                                  kpp := Option.map jsTrim p.client.kpp
                                  lastName := p.client.lastName
                                  firstName := p.client.firstName
                                  middleName := p.client.middleName
                                  snils := p.client.snils } with ec | cp <;> rw [hbc] at hok
  · first
    | exact Except.noConfusion hok
    | simp at hok
  rcases hbo : buildParticipant { inn := p.our.inn
                                  kpp := p.our.kpp
                                  lastName := p.our.lastName
                                  firstName := p.our.firstName
                                  middleName := p.our.middleName
                                  snils := p.our.snils } with eo | os <;> rw [hbo] at hok
  · first
    | exact Except.noConfusion hok
    | simp at hok
  injection hok with hok
  subst hok
  refine ⟨f, rfl, ?_, ?_, ?_⟩
  · rfl
  · rfl
  · rfl

theorem stripWs_sub (s : JsStr) : (stripWs s).length ≤ s.length :=
  List.length_filter_le _ _

theorem stripWs_isEmpty_of (s : JsStr) (h : s.isEmpty = true) : stripWs s = [] := by
  cases s with
  | nil => rfl
  | cons a l => simp [List.isEmpty] at h

/-- C1: classification of raw participant inputs by normalized tax-id length:
digits-only of length 10 resolves to the organization block (registration code
attached trimmed when truthy), length 12 to the individual block, any other
length fails 400; an absent tax id and a tax id with a non-digit residue also
fail 400. -/
theorem claim1_participant_classification (p : ParticipantInput) :
    (p.inn = none →
      buildParticipant p = .error ⟨400, str "ИНН обязателен для формирования реквизитов"⟩) ∧
    (∀ s, p.inn = some s → isNumericStr (stripWs s) = true →
      ((stripWs s).length = 10 →
        buildParticipant p = .ok (.org (stripWs s) (truthyTrim p.kpp))) ∧
      ((stripWs s).length = 12 →
        buildParticipant p = .ok (.ind (stripWs s) (truthyTrim p.lastName)
          (truthyTrim p.firstName) (truthyTrim p.middleName) (truthyTrim p.snils))) ∧
      ((stripWs s).length ≠ 10 → (stripWs s).length ≠ 12 →
        buildParticipant p = .error ⟨400, str "ИНН должен содержать 10 или 12 цифр"⟩)) ∧
    (∀ s c, p.inn = some s → c ∈ stripWs s → isDigit c = false →
      buildParticipant p = .error ⟨400, str "ИНН должен содержать только цифры"⟩) := by
  refine ⟨?_, ?_, ?_⟩
  · intro h
    unfold buildParticipant
    rw [h]
  · intro s hs hnum
    have hne : s.isEmpty = false := by
      by_contra hemp
      have : s.isEmpty = true := by
        cases hie : s.isEmpty
        · exact absurd hie hemp
        · rfl
      rw [stripWs_isEmpty_of s this] at hnum
      simp [isNumericStr] at hnum
    refine ⟨?_, ?_, ?_⟩
    · intro h10
      unfold buildParticipant
      rw [hs]
      simp only [hne, Bool.false_eq_true, if_false, hnum, not_true, if_neg, h10]
      simp
    · intro h12
      unfold buildParticipant
      rw [hs]
      have h10 : ¬ (stripWs s).length = 10 := by omega
      simp only [hne, Bool.false_eq_true, if_false, hnum, h10, h12]
      simp
    · intro h10 h12
      unfold buildParticipant
      rw [hs]
      simp only [hne, Bool.false_eq_true, if_false, hnum, h10, h12]
      simp
  · intro s c hs hc hd
    have hnum : isNumericStr (stripWs s) = false := by
      have hall : (stripWs s).all isDigit = false := by
        rw [List.all_eq_false]
        exact ⟨c, hc, by simp [hd]⟩
      simp [isNumericStr, hall]
    have hne : s.isEmpty = false := by
      cases s with
      | nil => simp [stripWs] at hc
      | cons a l => rfl
    unfold buildParticipant
    rw [hs]
    simp [hne, hnum]

theorem claim1_witness :
    buildParticipant ⟨some (str "77 12345678"), some (str " 771201001 "), none, none, none, none⟩ =
      .ok (.org (str "7712345678") (some (str "771201001"))) := by
  have h := ((claim1_participant_classification
      ⟨some (str "77 12345678"), some (str " 771201001 "), none, none, none, none⟩).2.1
    (str "77 12345678") rfl (by decide)).1 (by decide)
  exact h.trans (by decide)

/-- C2: a counterparty tax id normalizing to 10 digits with no truthy
registration code is rejected with a 400 validation error before the transport
is ever invoked (the request log is empty). -/
theorem claim2_kpp_required_before_transport (transport : SentReq → TransportResp)
    (docId attId today : JsStr) (p : UploadParams) (s : JsStr)
    (h1 : p.client.inn = some s)
    (h2 : isNumericStr (stripWs s) = true)
    (h3 : (stripWs s).length = 10)
    (h4 : jsTruthyOpt (p.client.kpp.map jsTrim) = none) :
    ∃ msg, performUpload transport docId attId today p = (.error ⟨400, msg⟩, []) := by
  have hne : s.isEmpty = false := by
    by_contra hemp
    have hx : s.isEmpty = true := by
      cases hie : s.isEmpty
      · exact absurd hie hemp
      · rfl
    rw [stripWs_isEmpty_of s hx] at h3
    simp at h3
  suffices h : ∃ msg, buildUploadRequest docId attId today p = .error ⟨400, msg⟩ by
    obtain ⟨msg, hb⟩ := h
    exact ⟨msg, by unfold performUpload; rw [hb]⟩
  unfold buildUploadRequest
  rcases hsid : jsTruthyOpt p.sessionId with _ | sid
  · exact ⟨_, rfl⟩
  rcases hfile : p.file with _ | f
  · exact ⟨_, rfl⟩
  have hci : jsTruthyOpt p.client.inn = some s := by
    rw [h1]; simp [jsTruthyOpt, hne]
  rw [hci]
  rcases hoi : jsTruthyOpt p.our.inn with _ | oi
  · exact ⟨_, rfl⟩
  dsimp only
  rw [if_pos (by rw [h4]; exact ⟨h3, rfl⟩)]
  exact ⟨_, rfl⟩

theorem claim2_witness :
    (performUpload (fun _ => ⟨true, 200, str "OK", [], none⟩) (str "d") (str "a")
        (str "2024-01-01")
        { sessionId := some (str "sid")
          client := { inn := some (str "7712345678") }
          our := { inn := some (str "7712345678"), kpp := some (str "771201001") }
          file := some ⟨some (str "x.docx"), []⟩ }).2 = [] := by
  obtain ⟨msg, h⟩ := claim2_kpp_required_before_transport
    (fun _ => ⟨true, 200, str "OK", [], none⟩) (str "d") (str "a") (str "2024-01-01")
    { sessionId := some (str "sid")
      client := { inn := some (str "7712345678") }
      our := { inn := some (str "7712345678"), kpp := some (str "771201001") }
      file := some ⟨some (str "x.docx"), []⟩ }
    (str "7712345678") rfl (by decide) (by decide) (by decide)
  rw [h]

theorem runBatchAux_length (transport : SentReq → TransportResp) (today : JsStr)
    (shared : BatchShared) (ids : Nat → JsStr × JsStr) :
    ∀ (files : List JsFile) (i : Nat),
      (runBatchAux transport today shared ids i files).1.length = files.length := by
  intro files
  induction files with
  | nil => intro i; rfl
  | cons f fs ih =>
    intro i
    unfold runBatchAux
    simp [ih]

theorem runBatchAux_get (transport : SentReq → TransportResp) (today : JsStr)
    (shared : BatchShared) (ids : Nat → JsStr × JsStr) :
    ∀ (files : List JsFile) (i j : Nat) (h : j < files.length),
      (runBatchAux transport today shared ids i files).1[j]? =
        some ((processFile transport today shared (ids (i + j)) files[j]).1) := by
  intro files
  induction files with
  | nil => intro i j h; simp at h
  | cons f fs ih =>
    intro i j h
    unfold runBatchAux
    cases j with
    | zero => simp
    | succ k =>
      have hk : k < fs.length := by simpa using h
      have := ih (i + 1) k hk
      simpa [Nat.add_assoc, Nat.add_comm 1 k] using this

/-- C3: the batch loop yields exactly one outcome per input file, in input
order, with `total` the number of files; each entry is a function of that file
alone (given the shared fields and that file's id draws), so no item's failure
affects any other; a file with no extractable tax id is recorded failed with
the fixed message and contributes no transport request; any upload error is
caught and recorded as that item's outcome. -/
theorem claim3_batch_isolation (transport : SentReq → TransportResp) (today : JsStr)
    (shared : BatchShared) (ids : Nat → JsStr × JsStr) (files : List JsFile) :
    (runBatch transport today shared ids files).1.total = files.length ∧
    (runBatch transport today shared ids files).1.results.length = files.length ∧
    (∀ (j : Nat) (h : j < files.length),
      (runBatch transport today shared ids files).1.results[j]? =
        some ((processFile transport today shared (ids j) files[j]).1)) ∧
    (∀ (idp : JsStr × JsStr) (f : JsFile),
      (parseInnKppFromFilename (f.originalname.getD [])).1 = none →
      processFile transport today shared idp f =
        ({ fileName := f.originalname, ok := false,
           error := some (str "Не найден ИНН в названии файла") }, [])) ∧
    (∀ (idp : JsStr × JsStr) (f : JsFile) (inn : JsStr) (e : HttpError)
        (log : List SentReq),
      (parseInnKppFromFilename (f.originalname.getD [])).1 = some inn →
      performUpload transport idp.1 idp.2 today
        { sessionId := shared.sessionId
          docBaseUrl := shared.docBaseUrl
          client := { inn := some inn, kpp := (parseInnKppFromFilename (f.originalname.getD [])).2 }
          our := { inn := shared.ourInn
                   kpp := shared.ourKpp
                   lastName := shared.ourLastName
                   firstName := shared.ourFirstName
                   middleName := shared.ourMiddleName
                   snils := shared.ourSnils }
          docType := shared.docType
          number := shared.number
          date := shared.date
          note := shared.note
          file := some f } = (.error e, log) →
      processFile transport today shared idp f =
        ({ fileName := f.originalname, ok := false, error := some e.message }, log)) := by
  refine ⟨rfl, ?_, ?_, ?_, ?_⟩
  · unfold runBatch
    simp [runBatchAux_length]
  · intro j h
    unfold runBatch
    have := runBatchAux_get transport today shared ids files 0 j h
    simpa using this
  · intro idp f hn
    unfold processFile
    dsimp only
    rw [hn]
  · intro idp f inn e log hn hp
    unfold processFile
    dsimp only
    rw [hn]
    dsimp only
    rw [hp]

theorem claim3_witness :
    (runBatch (fun _ => ⟨true, 200, str "OK", [], none⟩) (str "2024-01-01")
        { sessionId := some (str "sid"), ourInn := some (str "771234567890") }
        (fun _ => (str "d", str "a"))
        [⟨some ([0xD0, 0x98, 0xD0, 0x9D, 0xD0, 0x9D] ++ str "771234567890"), [1]⟩,
         ⟨some (str "report.docx"), [2]⟩,
         ⟨some ([0xD0, 0x98, 0xD0, 0x9D, 0xD0, 0x9D] ++ str "771234567890"), [3]⟩]).1.results[1]? =
      some { fileName := some (str "report.docx"), ok := false,
             error := some (str "Не найден ИНН в названии файла") } := by
  have h := (claim3_batch_isolation (fun _ => ⟨true, 200, str "OK", [], none⟩)
      (str "2024-01-01")
      { sessionId := some (str "sid"), ourInn := some (str "771234567890") }
      (fun _ => (str "d", str "a"))
      [⟨some ([0xD0, 0x98, 0xD0, 0x9D, 0xD0, 0x9D] ++ str "771234567890"), [1]⟩,
       ⟨some (str "report.docx"), [2]⟩,
       ⟨some ([0xD0, 0x98, 0xD0, 0x9D, 0xD0, 0x9D] ++ str "771234567890"), [3]⟩]).2.2.1
    1 (by decide)
  exact h.trans (by rfl)

/-- C4 fails as stated: `01-01-0027` is a valid calendar date (ISO week 53),
but the code's `Date.UTC` maps year 27 to 1927 (two-digit-year rule) and the
label embeds week 52 instead. -/
theorem claim4_counterexample :
    validDate 27 1 1 ∧
    isoWeekOfDate 27 1 1 = 53 ∧
    extractWeekDescription (str "01-01-0027") = some (weekLabel 52) ∧
    weekLabel 52 ≠ weekLabel 53 := by
  refine ⟨by decide, by decide, by decide, by decide⟩

/-- C4 amended: for the matched `DD-MM-YYYY` components forming a valid
calendar date with year at least 101, the label embeds the reference
ISO-8601 week number of that date (for years 0..99 `Date.UTC` shifts the year
by 1900, and the same rule hits the computed week-year start when a year-100
date's ISO week belongs to year 99); the two anchor dates hold. -/
theorem claim4_iso_week (name : JsStr) (d m y : Int)
    (hm : firstDateMatch name = some (d, m, y)) (hv : validDate y m d)
    (hy : 101 ≤ y) :
    extractWeekDescription name = some (weekLabel (isoWeekOfDate y m d)) ∧
    extractWeekDescription (str "01-01-2021") = some (weekLabel 53) ∧
    isoWeekOfDate 2021 1 1 = 53 ∧
    extractWeekDescription (str "15-03-2024") = some (weekLabel 11) ∧
    isoWeekOfDate 2024 3 15 = 11 :=
  ⟨extractWeek_isoCorrect name d m y hm hv hy, by decide, by decide, by decide, by decide⟩

theorem claim4_witness :
    extractWeekDescription (str "report 15-03-2024.docx") =
      some (weekLabel (isoWeekOfDate 2024 3 15)) :=
  (claim4_iso_week (str "report 15-03-2024.docx") 15 3 2024 (by decide) (by decide)
    (by decide)).1

theorem daysInMonth_ge (y m : Int) : 28 ≤ daysInMonth y m := by
  unfold daysInMonth
  split_ifs <;> omega

theorem jsDateUTC_inRange (y m d : Int)
    (hd1 : 0 ≤ d) (hd2 : d ≤ 99) (hm1 : 0 ≤ m) (hm2 : m ≤ 99)
    (hy1 : 0 ≤ y) (hy2 : y ≤ 9999) :
    -100000000 ≤ jsDateUTC y m d ∧ jsDateUTC y m d ≤ 100000000 := by
  unfold jsDateUTC jsMakeDay
  dsimp only
  set yr := if 0 ≤ y ∧ y ≤ 99 then 1900 + y else y with hyr
  have hyrb : 0 ≤ yr ∧ yr ≤ 9999 := by
    rw [hyr]; split_ifs <;> omega
  set ym := yr + (m - 1) / 12 with hym
  have hymb : -1 ≤ ym ∧ ym ≤ 10008 := by
    rw [hym]; omega
  have hmn : 1 ≤ (m - 1) % 12 + 1 ∧ (m - 1) % 12 + 1 ≤ 12 := by omega
  have hvd : validDate ym ((m - 1) % 12 + 1) 1 := by
    refine ⟨hmn.1, hmn.2, by omega, ?_⟩
    have := daysInMonth_ge ym ((m - 1) % 12 + 1)
    omega
  have hb := validDate_bracket ym ((m - 1) % 12 + 1) 1 hvd
  have hlo : (-800000 : Int) ≤ jan1 ym := by rw [jan1_formula]; omega
  have hhi : jan1 (ym + 1) ≤ 4000000 := by rw [jan1_formula]; omega
  omega

/-- C5 fails as stated: the filename `32-01-2024`, whose only
`DD-MM-YYYY`-shaped substring has day 32 (not a valid calendar date), does not
yield an unset description — the components roll over to 2024-02-01 and a
week-5 label is produced. -/
theorem claim5_counterexample :
    firstDateMatch (str "32-01-2024") = some (32, 1, 2024) ∧
    ¬ validDate 2024 1 32 ∧
    extractWeekDescription (str "32-01-2024") = some (weekLabel 5) := by
  refine ⟨by decide, by decide, by decide⟩

/-- C5 amended: the extractor is unset exactly when no `DD-MM-YYYY`-shaped
substring occurs; a matched substring always produces a label (out-of-range
components roll over per JavaScript `Date` semantics), and no error is ever
raised (the function is total). -/
theorem claim5_unset_iff_no_match (name : JsStr) :
    extractWeekDescription name = none ↔ firstDateMatch name = none := by
  unfold extractWeekDescription
  rcases hm : firstDateMatch name with _ | t
  · simp
  · obtain ⟨d, m, y⟩ := t
    have hb := firstDateMatch_bounds name d m y hm
    have hr := jsDateUTC_inRange y m d (by omega) (by omega) (by omega) (by omega)
      (by omega) (by omega)
    simp only [hm]
    rw [if_neg (by omega)]
    simp

theorem claim5_witness :
    (extractWeekDescription (str "отчет за квартал.docx") = none ↔
      firstDateMatch (str "отчет за квартал.docx") = none) ∧
    extractWeekDescription (str "отчет за квартал.docx") = none :=
  ⟨claim5_unset_iff_no_match (str "отчет за квартал.docx"), by decide⟩

theorem extractWeek_some_nonempty (name lbl : JsStr)
    (h : extractWeekDescription name = some lbl) : lbl.isEmpty = false := by
  unfold extractWeekDescription at h
  rcases hm : firstDateMatch name with _ | t
  · rw [hm] at h; simp at h
  · obtain ⟨d, m, y⟩ := t
    rw [hm] at h
    dsimp only at h
    split_ifs at h
    injection h with h
    subst h
    unfold weekLabel
    rcases hs : str "Еженедельный отчет по выручке и наценке (" with _ | ⟨a, l⟩
    · exact absurd hs (by decide)
    · simp

/-- C6 fails as stated: with the explicit note `" "` (supplied) and an
inferable period description, the built note is the period description — it is
neither the trimmed explicit note (the empty string) nor the explicit note
verbatim. -/
theorem claim6_counterexample :
    (buildUploadRequest (str "doc") (str "att") (str "2024-01-01")
        { sessionId := some (str "sid")
          client := { inn := some (str "771234567890") }
          our := { inn := some (str "771234567890") }
          note := some (str " ")
          file := some ⟨some (str "15-03-2024.docx"), []⟩ }).map
      (fun r => r.doc.primechanie) = .ok (weekLabel 11) ∧
    weekLabel 11 ≠ jsTrim (str " ") ∧
    weekLabel 11 ≠ str " " := by
  refine ⟨by rfl, by decide, by decide⟩

/-- C6 amended: the built note is exactly one of, in priority order, the
trimmed explicit note when it is supplied and nonempty after trimming, else
the period description inferred from the decoded filename when present, else
the empty string — never a concatenation. -/
theorem claim6_note_precedence (docId attId today : JsStr) (p : UploadParams)
    (req : SentReq) (hok : buildUploadRequest docId attId today p = .ok req) :
    ∃ f, p.file = some f ∧
      ((∀ n, p.note = some n → (jsTrim n).isEmpty = false →
        req.doc.primechanie = jsTrim n) ∧
      (∀ lbl, jsTruthyOpt (p.note.map jsTrim) = none →
        extractWeekDescription (decodeFilename
          ((jsTruthyOpt f.originalname).getD (str "document.docx"))) = some lbl →
        req.doc.primechanie = lbl) ∧
      (jsTruthyOpt (p.note.map jsTrim) = none →
        extractWeekDescription (decodeFilename
          ((jsTruthyOpt f.originalname).getD (str "document.docx"))) = none →
        req.doc.primechanie = [])) := by
  obtain ⟨f, hf, hprim, hdat, hour⟩ :=
    buildUploadRequest_ok_fields docId attId today p req hok
  refine ⟨f, hf, ?_, ?_, ?_⟩
  · intro n hn hne
    rw [hprim, hn]
    simp [jsTruthyOpt, hne]
  · intro lbl hnone hlbl
    rw [hprim, hnone, hlbl]
    have := extractWeek_some_nonempty _ _ hlbl
    simp [jsTruthyOpt, this]
  · intro hnone hmnone
    rw [hprim, hnone, hmnone]
    rfl

theorem claim6_witness :
    (buildUploadRequest (str "doc") (str "att") (str "2024-01-01")
        { sessionId := some (str "sid")
          client := { inn := some (str "771234567890") }
          our := { inn := some (str "771234567890") }
          note := some (str "  согласовано  ")
          file := some ⟨some (str "15-03-2024.docx"), []⟩ }).map
      (fun r => r.doc.primechanie) = .ok (str "согласовано") := by
  have hsome : (buildUploadRequest (str "doc") (str "att") (str "2024-01-01")
      { sessionId := some (str "sid")
        client := { inn := some (str "771234567890") }
        our := { inn := some (str "771234567890") }
        note := some (str "  согласовано  ")
        file := some ⟨some (str "15-03-2024.docx"), []⟩ }).toOption.isSome = true := by
    decide
  rcases h : buildUploadRequest (str "doc") (str "att") (str "2024-01-01")
      { sessionId := some (str "sid")
        client := { inn := some (str "771234567890") }
        our := { inn := some (str "771234567890") }
        note := some (str "  согласовано  ")
        file := some ⟨some (str "15-03-2024.docx"), []⟩ } with e | req
  · rw [h] at hsome
    simp [Except.toOption] at hsome
  · obtain ⟨f, hf, hcase, _, _⟩ := claim6_note_precedence _ _ _ _ _ h
    have hnote := hcase (str "  согласовано  ") rfl (by decide)
    simp only [Except.map]
    rw [hnote]
    exact congrArg Except.ok (by decide)

theorem splitOnChar_ne_nil (sep : Nat) (l : JsStr) : splitOnChar sep l ≠ [] := by
  cases l with
  | nil => simp [splitOnChar]
  | cons c rest =>
    unfold splitOnChar
    rcases splitOnChar sep rest with _ | ⟨x, t⟩ <;> split_ifs <;> simp

theorem splitOnChar_no_sep (sep : Nat) (l : JsStr) (h : sep ∉ l) :
    splitOnChar sep l = [l] := by
  induction l with
  | nil => rfl
  | cons c rest ih =>
    have hc : c ≠ sep := fun he => h (he ▸ List.mem_cons_self c rest)
    have hr : sep ∉ rest := fun hm => h (List.mem_cons_of_mem c hm)
    have hstep : splitOnChar sep (c :: rest) =
        match splitOnChar sep rest with
        | [] => if c = sep then [[], []] else [[c]]
        | x :: t => if c = sep then [] :: x :: t else (c :: x) :: t := rfl
    rw [hstep, ih hr]
    simp [hc]

theorem splitOnChar_seam (sep : Nat) (a r : JsStr) (h : sep ∉ a) :
    splitOnChar sep (a ++ sep :: r) = a :: splitOnChar sep r := by
  induction a with
  | nil =>
    have hstep : splitOnChar sep ([] ++ sep :: r) =
        match splitOnChar sep r with
        | [] => if sep = sep then [[], []] else [[sep]]
        | x :: t => if sep = sep then [] :: x :: t else (sep :: x) :: t := rfl
    rw [hstep]
    rcases hs : splitOnChar sep r with _ | ⟨x, t⟩
    · exact absurd hs (splitOnChar_ne_nil sep r)
    · simp
  | cons c a0 ih =>
    have hc : c ≠ sep := fun he => h (he ▸ List.mem_cons_self c a0)
    have ha : sep ∉ a0 := fun hm => h (List.mem_cons_of_mem c hm)
    have hstep : splitOnChar sep ((c :: a0) ++ sep :: r) =
        match splitOnChar sep (a0 ++ sep :: r) with
        | [] => if c = sep then [[], []] else [[c]]
        | x :: t => if c = sep then [] :: x :: t else (c :: x) :: t := rfl
    rw [hstep, ih ha]
    simp [hc]

theorem digits_no_hyphen (l : JsStr) (h : l.all isDigit = true) : 45 ∉ l := by
  intro hm
  rw [List.all_eq_true] at h
  have := h 45 hm
  simp [isDigit] at this

theorem digits_no_dot (l : JsStr) (h : l.all isDigit = true) : 46 ∉ l := by
  intro hm
  rw [List.all_eq_true] at h
  have := h 46 hm
  simp [isDigit] at this

/-- C7: the wire conversion sends a well-formed `YYYY-MM-DD` string to the
corresponding `DD.MM.YYYY` string, the inverse conversion recovers the
original, and when no date is supplied the current date (oracle) is used with
the same conversion. -/
theorem claim7_date_roundtrip (a b c docId attId today : JsStr) (p : UploadParams)
    (req : SentReq)
    (hda : a.all isDigit = true) (hdb : b.all isDigit = true) (hdc : c.all isDigit = true)
    (hla : a.length = 4) (hlb : b.length = 2) (hlc : c.length = 2) :
    toWireDate (a ++ (45 :: (b ++ (45 :: c)))) = c ++ (46 :: (b ++ (46 :: a))) ∧
    fromWireDate (toWireDate (a ++ (45 :: (b ++ (45 :: c))))) =
      a ++ (45 :: (b ++ (45 :: c))) ∧
    (p.date = none → buildUploadRequest docId attId today p = .ok req →
      req.doc.datum = toWireDate today) := by
  have hsplit : splitOnChar 45 (a ++ (45 :: (b ++ (45 :: c)))) = [a, b, c] := by
    rw [splitOnChar_seam 45 a (b ++ (45 :: c)) (digits_no_hyphen a hda),
        splitOnChar_seam 45 b c (digits_no_hyphen b hdb),
        splitOnChar_no_sep 45 c (digits_no_hyphen c hdc)]
  have hto : toWireDate (a ++ (45 :: (b ++ (45 :: c)))) = c ++ (46 :: (b ++ (46 :: a))) := by
    unfold toWireDate
    rw [hsplit]
    simp [joinWith]
  refine ⟨hto, ?_, ?_⟩
  · rw [hto]
    unfold fromWireDate
    rw [splitOnChar_seam 46 c (b ++ (46 :: a)) (digits_no_dot c hdc),
        splitOnChar_seam 46 b a (digits_no_dot b hdb),
        splitOnChar_no_sep 46 a (digits_no_dot a hda)]
    simp [joinWith]
  · intro hdate hok
    obtain ⟨f, hf, hprim, hdat, hour⟩ :=
      buildUploadRequest_ok_fields docId attId today p req hok
    rw [hdat, hdate]
    rfl

theorem claim7_witness :
    toWireDate (str "2024-03-15") = str "15.03.2024" ∧
    fromWireDate (toWireDate (str "2024-03-15")) = str "2024-03-15" := by
  have h := claim7_date_roundtrip (str "2024") (str "03") (str "15")
    (str "d") (str "a") (str "2024-01-01") {}
    ⟨[], [], [], ⟨[], [], [], [], .org [] none, .org [] none, [], []⟩, 0⟩
    (by decide) (by decide) (by decide) (by decide) (by decide) (by decide)
  have he : str "2024-03-15" = str "2024" ++ (45 :: (str "03" ++ (45 :: str "15"))) := by
    decide
  constructor
  · rw [he]
    exact h.1.trans (by decide)
  · rw [he]
    exact h.2.1.trans (by decide)

/-- C8 fails as stated: a successful authentication can return the empty
string as token; it is cached, but `if (this.token)` treats it as falsy, so
the very next authenticate call issues another authentication request. -/
theorem claim8_counterexample :
    SabyClient.authenticate ⟨true, 200, str "OK", some []⟩ ⟨none⟩ =
      (⟨some []⟩, .ok (some []), 1) ∧
    (SabyClient.authenticate ⟨true, 200, str "OK", some []⟩ ⟨some []⟩).2.2 = 1 := by
  exact ⟨by decide, by decide⟩

/-- C8 amended: once a nonempty token is cached, every authenticate call —
directly or inside `uploadDraftDocument` — returns that same token, leaves the
state unchanged and issues zero authentication requests, over any sequence of
operations; and a successful authentication from the fresh state caches the
returned token with exactly one request. -/
theorem claim8_token_cached (s : SabyState) (t : JsStr)
    (hs : s.token = some t) (ht : t.isEmpty = false) :
    (∀ net, SabyClient.authenticate net s = (s, .ok (some t), 0)) ∧
    (∀ net, (SabyClient.uploadDraftDocument net s).1 = s ∧
      (SabyClient.uploadDraftDocument net s).2.2 = 0) ∧
    (∀ ops, (runSabyOps s ops).1 = s ∧ (runSabyOps s ops).2 = 0) ∧
    (∀ net : AuthNet, net.ok = true →
      SabyClient.authenticate net ⟨none⟩ = (⟨net.token⟩, .ok net.token, 1)) := by
  have hauth : ∀ net, SabyClient.authenticate net s = (s, .ok (some t), 0) := by
    intro net
    unfold SabyClient.authenticate
    rw [hs]
    simp [ht]
  have hup : ∀ net, (SabyClient.uploadDraftDocument net s).1 = s ∧
      (SabyClient.uploadDraftDocument net s).2.2 = 0 := by
    intro net
    unfold SabyClient.uploadDraftDocument
    rw [hauth net.auth]
    split_ifs <;> simp
  refine ⟨hauth, hup, ?_, ?_⟩
  · intro ops
    induction ops with
    | nil => exact ⟨rfl, rfl⟩
    | cons op rest ih =>
      obtain ⟨ih1, ih2⟩ := ih
      cases op with
      | auth net =>
        unfold runSabyOps
        rw [hauth net]
        exact ⟨ih1, by simp [ih2]⟩
      | upload net =>
        obtain ⟨h1, h2⟩ := hup net
        unfold runSabyOps
        rcases hu : SabyClient.uploadDraftDocument net s with ⟨s2, r, n⟩
        rw [hu] at h1 h2
        simp only at h1 h2
        subst h1
        subst h2
        exact ⟨ih1, by simp [ih2]⟩
  · intro net hok
    unfold SabyClient.authenticate authIssue
    simp [hok]

theorem claim8_witness :
    SabyClient.authenticate ⟨false, 500, str "err", none⟩ ⟨some (str "token-1")⟩ =
      (⟨some (str "token-1")⟩, .ok (some (str "token-1")), 0) ∧
    (runSabyOps ⟨some (str "token-1")⟩
      [.auth ⟨false, 500, str "err", none⟩, .upload ⟨⟨true, 200, str "OK", some (str "token-2")⟩,
        true, 200, str "OK", .null⟩]).2 = 0 := by
  have h := claim8_token_cached ⟨some (str "token-1")⟩ (str "token-1") rfl (by decide)
  exact ⟨h.1 _, (h.2.2.1 _).2⟩

/-- C9: an HTTP-success response whose body does not parse returns normally —
the raw text is preserved, the parsed body and the document id are unset, and
exactly the one request was sent. -/
theorem claim9_malformed_success_soft (transport : SentReq → TransportResp)
    (docId attId today : JsStr) (p : UploadParams) (req : SentReq) (r : TransportResp)
    (hb : buildUploadRequest docId attId today p = .ok req)
    (ht : transport req = r) (hok : r.ok = true) (hjson : r.json = none) :
    performUpload transport docId attId today p =
      (.ok { status := r.status, statusText := r.statusText, rawBody := r.text,
             jsonBody := none, documentId := none }, [req]) := by
  unfold performUpload
  rw [hb]
  dsimp only
  unfold interpretResponse
  rw [ht]
  dsimp only
  rw [hjson]
  simp [jvField, jvFirstTruthy, hok]

theorem claim9_witness :
    performUpload (fun _ => ⟨true, 200, str "OK", str "<html>oops</html>", none⟩)
      (str "d") (str "a") (str "2024-01-01")
      { sessionId := some (str "sid")
        client := { inn := some (str "771234567890") }
        our := { inn := some (str "771234567890") }
        file := some ⟨some (str "x.docx"), [1, 2]⟩ } =
    (.ok { status := 200, statusText := str "OK", rawBody := str "<html>oops</html>",
           jsonBody := none, documentId := none },
     (performUpload (fun _ => ⟨true, 200, str "OK", str "<html>oops</html>", none⟩)
       (str "d") (str "a") (str "2024-01-01")
       { sessionId := some (str "sid")
         client := { inn := some (str "771234567890") }
         our := { inn := some (str "771234567890") }
         file := some ⟨some (str "x.docx"), [1, 2]⟩ }).2) := by
  have hsome : (buildUploadRequest (str "d") (str "a") (str "2024-01-01")
      { sessionId := some (str "sid")
        client := { inn := some (str "771234567890") }
        our := { inn := some (str "771234567890") }
        file := some ⟨some (str "x.docx"), [1, 2]⟩ }).toOption.isSome = true := by decide
  rcases h : buildUploadRequest (str "d") (str "a") (str "2024-01-01")
      { sessionId := some (str "sid")
        client := { inn := some (str "771234567890") }
        our := { inn := some (str "771234567890") }
        file := some ⟨some (str "x.docx"), [1, 2]⟩ } with e | req
  · rw [h] at hsome
    simp [Except.toOption] at hsome
  · have h9 := claim9_malformed_success_soft
      (fun _ => ⟨true, 200, str "OK", str "<html>oops</html>", none⟩)
      (str "d") (str "a") (str "2024-01-01") _ req _ h rfl rfl rfl
    rw [h9]

theorem stripWs_idem (s : JsStr) : stripWs (stripWs s) = stripWs s := by
  unfold stripWs
  rw [List.filter_filter]
  simp

theorem isEmpty_false_of_strip_len (s : JsStr) (n : Nat) (hn : 0 < n)
    (h : (stripWs s).length = n) : s.isEmpty = false := by
  cases s with
  | nil => simp [stripWs] at h; omega
  | cons a l => rfl

theorem buildParticipant_len10 (p : ParticipantInput) (s : JsStr) (hs : p.inn = some s)
    (hnum : isNumericStr (stripWs s) = true) (h10 : (stripWs s).length = 10) :
    buildParticipant p = .ok (.org (stripWs s) (truthyTrim p.kpp)) := by
  have hne : s.isEmpty = false := isEmpty_false_of_strip_len s 10 (by omega) h10
  unfold buildParticipant
  rw [hs]
  simp only [hne, Bool.false_eq_true, if_false, hnum, h10]
  simp

theorem buildParticipant_len12 (p : ParticipantInput) (s : JsStr) (hs : p.inn = some s)
    (hnum : isNumericStr (stripWs s) = true) (h12 : (stripWs s).length = 12) :
    buildParticipant p = .ok (.ind (stripWs s) (truthyTrim p.lastName)
      (truthyTrim p.firstName) (truthyTrim p.middleName) (truthyTrim p.snils)) := by
  have hne : s.isEmpty = false := isEmpty_false_of_strip_len s 12 (by omega) h12
  have h10 : ¬ (stripWs s).length = 10 := by omega
  unfold buildParticipant
  rw [hs]
  simp only [hne, Bool.false_eq_true, if_false, hnum, h10, h12]
  simp

/-- C10: the registration-code precondition applies only to the counterparty:
with an otherwise-valid input whose own-party tax id normalizes to 10 digits
and no own registration code supplied, the build succeeds (no error for the
missing code) and the own-organization block is the organization variant with
the tax id and no registration code. -/
theorem claim10_our_kpp_not_required (docId attId today : JsStr) (p : UploadParams)
    (sid c o : JsStr) (f : JsFile)
    (hsid : jsTruthyOpt p.sessionId = some sid)
    (hf : p.file = some f)
    (hc : p.client.inn = some c)
    (hcnum : isNumericStr (stripWs c) = true)
    (hcok : (stripWs c).length = 12 ∨
      ((stripWs c).length = 10 ∧ jsTruthyOpt (p.client.kpp.map jsTrim) ≠ none))
    (ho : p.our.inn = some o)
    (honum : isNumericStr (stripWs o) = true)
    (hol : (stripWs o).length = 10)
    (hkpp : jsTruthyOpt p.our.kpp = none) :
    ∃ req, buildUploadRequest docId attId today p = .ok req ∧
      req.doc.nashaOrg = .org (stripWs o) none := by
  have hcne : c.isEmpty = false := by
    rcases hcok with h12 | ⟨h10, _⟩
    · exact isEmpty_false_of_strip_len c 12 (by omega) h12
    · exact isEmpty_false_of_strip_len c 10 (by omega) h10
  have hone : o.isEmpty = false := isEmpty_false_of_strip_len o 10 (by omega) hol
  have hci : jsTruthyOpt p.client.inn = some c := by
    rw [hc]; simp [jsTruthyOpt, hcne]
  have hoi : jsTruthyOpt p.our.inn = some o := by
    rw [ho]; simp [jsTruthyOpt, hone]
  have hOur : buildParticipant { inn := p.our.inn
                                 kpp := p.our.kpp
                                 lastName := p.our.lastName
                                 firstName := p.our.firstName
                                 middleName := p.our.middleName
                                 snils := p.our.snils } = .ok (.org (stripWs o) none) := by
    have := buildParticipant_len10 { inn := p.our.inn
                                     kpp := p.our.kpp
                                     lastName := p.our.lastName
                                     firstName := p.our.firstName
                                     middleName := p.our.middleName
                                     snils := p.our.snils } o ho honum hol
    rw [this]
    unfold truthyTrim
    rw [hkpp]
    rfl
  unfold buildUploadRequest
  rw [hsid, hf, hci, hoi]
  dsimp only
  rw [if_neg (by
    rcases hcok with h12 | ⟨h10, hk⟩
    · intro hand; omega
    · intro hand
      rcases hand with ⟨_, hisn⟩
      rcases hjk : jsTruthyOpt (Option.map jsTrim p.client.kpp) with _ | v
      · exact hk hjk
      · rw [hjk] at hisn; simp at hisn)]
  rcases hcok with h12 | ⟨h10, hk⟩
  · rw [buildParticipant_len12 { inn := some (stripWs c)
                                 kpp := Option.map jsTrim p.client.kpp
                                 lastName := p.client.lastName
                                 firstName := p.client.firstName
                                 middleName := p.client.middleName
                                 snils := p.client.snils } (stripWs c) rfl
        (by rw [stripWs_idem]; exact hcnum) (by rw [stripWs_idem]; exact h12)]
    rw [hOur]
    exact ⟨_, rfl, rfl⟩
  · rw [buildParticipant_len10 { inn := some (stripWs c)
                                 kpp := Option.map jsTrim p.client.kpp
                                 lastName := p.client.lastName
                                 firstName := p.client.firstName
                                 middleName := p.client.middleName
                                 snils := p.client.snils } (stripWs c) rfl
        (by rw [stripWs_idem]; exact hcnum) (by rw [stripWs_idem]; exact h10)]
    rw [hOur]
    exact ⟨_, rfl, rfl⟩

theorem claim10_witness :
    (buildUploadRequest (str "doc") (str "att") (str "2024-01-01")
        { sessionId := some (str "sid")
          client := { inn := some (str "771234567890") }
          our := { inn := some (str "77 12345678") }
          file := some ⟨some (str "x.docx"), []⟩ }).map (fun r => r.doc.nashaOrg) =
      .ok (.org (str "7712345678") none) := by
  obtain ⟨req, h1, h2⟩ := claim10_our_kpp_not_required (str "doc") (str "att")
    (str "2024-01-01")
    { sessionId := some (str "sid")
      client := { inn := some (str "771234567890") }
      our := { inn := some (str "77 12345678") }
      file := some ⟨some (str "x.docx"), []⟩ }
    (str "sid") (str "771234567890") (str "77 12345678") ⟨some (str "x.docx"), []⟩
    (by decide) rfl rfl (by decide) (Or.inl (by decide)) rfl (by decide) (by decide)
    (by decide)
  rw [h1]
  simp only [Except.map]
  rw [h2]
  exact congrArg Except.ok (by decide)

/-! ## Evaluation checks of the embedding on concrete inputs -/

example : str "ИНН" = [0x418, 0x41D, 0x41D] := by decide

example : stripWs (str "77 1234 5678") = str "7712345678" := by decide

example : jsTrim (str "  x y ") = str "x y" := by decide

example : decodeFilename (str "report.docx") = str "report.docx" := by decide

example : decodeFilename [0xD0, 0x98, 0xD0, 0x9D, 0xD0, 0x9D] = str "ИНН" := by decide

example : base64Encode [77, 97, 110] = str "TWFu" := by decide

example : base64Encode [77, 97] = str "TWE=" := by decide

example :
    buildParticipant ⟨some (str "771234567890"), none, some (str "Иванов "), none, none, none⟩ =
      .ok (.ind (str "771234567890") (some (str "Иванов")) none none none) := by decide

example :
    parseInnKppFromFilename ([0xD0, 0x98, 0xD0, 0x9D, 0xD0, 0x9D] ++ str "7712345678" ++
      [0xD0, 0x9A, 0xD0, 0x9F, 0xD0, 0x9F] ++ str "771201001") =
    (some (str "7712345678"), some (str "771201001")) := by decide
